import Mathlib

/-!
Verification of the node-web-compatibility layer (`node-web-compat-web.ts`)
of a JWT-verification library.  The module provides, for the web platform:

* `nodeWebCompat.fetch` — an HTTP fetch wrapper with an optional response
  timeout, classifying failures as `FetchError` (network / timeout) or
  `NonRetryableFetchError` (non-200 status);
* `transformJwkToKeyObjectAsync` — JWK-to-WebCrypto key import, dispatching
  on the effective signature algorithm;
* `verifySignatureAsync` — building the WebCrypto `verify` call;
* the synchronous counterparts, which always fail with `NotSupported`;
* `bufferFromBase64url` — a base64url decoder.

The embedding below translates each of these into pure Lean functions.
Asynchronous behaviour (promise resolution / rejection, the abort timer)
is modelled by passing the outcome of the underlying transport and the
arrival time of the response explicitly.
-/

namespace NodeWebCompatWeb

/-! ### Base64url decoder

Source:
```
const bufferFromBase64url = (function () {
  const map = "ABCDEFGHIJKLMNOPQRSTUVWXYZabcdefghijklmnopqrstuvwxyz0123456789-_"
    .split("").reduce((acc, char, index) =>
      Object.assign(acc, { [char.charCodeAt(0)]: index }), {});
  return function (base64url) {
    base64url = base64url.replace(/=\x7b1,2\x7d$/, ""); // ignore padding
    let first, second, third, fourth;
    return base64url.match(/.\x7b1,4\x7d/g)!.reduce((acc, chunk, index) => {
      first = map[chunk.charCodeAt(0)];
      second = map[chunk.charCodeAt(1)];
      third = map[chunk.charCodeAt(2)];
      fourth = map[chunk.charCodeAt(3)];
      acc[3 * index] = (first << 2) | (second >> 4);
      acc[3 * index + 1] = ((second & 0b1111) << 4) | (third >> 2);
      acc[3 * index + 2] = ((third & 0b11) << 6) | fourth;
      return acc;
    }, new Uint8Array((base64url.length * 3) / 4));
  };
})();
```

JavaScript semantics captured by the embedding:

* `map[...]` is `undefined` for a character outside the alphabet, and
  `chunk.charCodeAt(i)` is `NaN` past the end of a chunk (so `map[NaN]`
  is `undefined`); in the bit operations `undefined` coerces to `0`.
* `new Uint8Array((len * 3) / 4)` truncates the fractional length
  (`ToIndex` truncates), i.e. allocates `3 * len / 4` (floor) bytes.
* writing `acc[i]` with `i` past the array length is silently discarded,
  and stored values are taken modulo 256.
* the regex `/.\x7b1,4\x7d/g` matches greedy runs of one to four
  non-line-terminator characters; `match` returns `null` when there is no
  match at all (empty string, or only line terminators), in which case
  `.reduce` crashes with a `TypeError` — modelled as `none`.
-/

/-- Web-compat base64url alphabet, in index order (the JS `map` sends the
character at index `i` to the six-bit value `i`). -/
def b64Alphabet : List Char :=
  "ABCDEFGHIJKLMNOPQRSTUVWXYZabcdefghijklmnopqrstuvwxyz0123456789-_".toList

/-- Position of a character in a list, starting at `i` (helper for the JS
char-to-six-bits `map`). -/
def indexInAlphabet (c : Char) : List Char → Nat → Option Nat
  | [], _ => none
  | a :: rest, i => if a = c then some i else indexInAlphabet c rest (i + 1)

/-- The JS `map`: a character of the base64url alphabet to its six-bit
value; `none` (JS `undefined`) for any other character. -/
def b64val (c : Char) : Option Nat :=
  indexInAlphabet c b64Alphabet 0

/-- JS line terminators, which the regex `.` does not match. -/
def isLineTerm (c : Char) : Bool :=
  c = '\n' || c = '\r' || c.toNat = 8232 || c.toNat = 8233

/-- The JS `base64url.replace(/=\x7b1,2\x7d$/, "")`: strip one or two
trailing `=` characters (two preferred, greedily). -/
def stripPadding (cs : List Char) : List Char :=
  if cs.reverse.take 2 = ['=', '='] then (cs.reverse.drop 2).reverse
  else if cs.reverse.take 1 = ['='] then (cs.reverse.drop 1).reverse
  else cs

/-- The JS `base64url.match(/.\x7b1,4\x7d/g)`, with an accumulator holding
the (reversed) current partial chunk: greedy runs of up to four
non-line-terminator characters. -/
def chunksAux : List Char → List Char → List (List Char)
  | [], cur => if cur = [] then [] else [cur.reverse]
  | c :: rest, cur =>
    if isLineTerm c then
      if cur = [] then chunksAux rest [] else cur.reverse :: chunksAux rest []
    else
      if cur.length = 3 then (cur.reverse ++ [c]) :: chunksAux rest []
      else chunksAux rest (c :: cur)

/-- `chunk.charCodeAt(i)` looked up in the JS `map`, coerced to a number by
the bit operations: six-bit value of the chunk character at `i`, `0` when
the character is absent or not in the alphabet. -/
def sixv (chunk : List Char) (i : Nat) : Nat :=
  ((chunk.get? i).bind b64val).getD 0

/-- The JS `acc[3 * index] = (first << 2) | (second >> 4)` value (`Uint8Array`
stores modulo 256). -/
def byte0 (ch : List Char) : Nat :=
  ((sixv ch 0 <<< 2) ||| (sixv ch 1 >>> 4)) % 256

/-- The JS `acc[3 * index + 1] = ((second & 0b1111) << 4) | (third >> 2)`
value. -/
def byte1 (ch : List Char) : Nat :=
  (((sixv ch 1 &&& 15) <<< 4) ||| (sixv ch 2 >>> 2)) % 256

/-- The JS `acc[3 * index + 2] = ((third & 0b11) << 6) | fourth` value. -/
def byte2 (ch : List Char) : Nat :=
  (((sixv ch 2 &&& 3) <<< 6) ||| sixv ch 3) % 256

/-- The three bytes a chunk contributes, in order. -/
def chunkBytes (ch : List Char) : List Nat :=
  [byte0 ch, byte1 ch, byte2 ch]

/-- One step of the JS reduce: the three indexed `Uint8Array` writes of a
chunk (`List.set` discards out-of-range writes, as `Uint8Array` does). -/
def writeChunk (acc : List Nat) (i : Nat) (ch : List Char) : List Nat :=
  ((acc.set (3 * i) (byte0 ch)).set (3 * i + 1) (byte1 ch)).set (3 * i + 2) (byte2 ch)

/-- The JS reduce over all chunks, with `i` the running chunk index. -/
def writeAll (acc : List Nat) (i : Nat) : List (List Char) → List Nat
  | [] => acc
  | ch :: rest => writeAll (writeChunk acc i ch) (i + 1) rest

/-- All bytes produced by the chunks, in order, ignoring the buffer bound
(specification companion of `writeAll`). -/
def decodeChunks : List (List Char) → List Nat
  | [] => []
  | ch :: rest => chunkBytes ch ++ decodeChunks rest

/-- The decoder body on a list of characters: strip padding, chunk, and
run the reduce over a fresh buffer of `3 * n / 4` zero bytes; `none` models
the `TypeError` thrown when `match` returns `null`. -/
def decodeCore (cs : List Char) : Option (List Nat) :=
  match chunksAux (stripPadding cs) [] with
  | [] => none
  | chunks =>
    some (writeAll (List.replicate (3 * (stripPadding cs).length / 4) 0) 0 chunks)

/-- The compat layer's `bufferFromBase64url`. -/
def bufferFromBase64url (s : String) : Option (List Nat) :=
  decodeCore s.data

/-- The base64url alphabet character for a six-bit value (used by the
spec-modelled encoder below). -/
def b64Char (n : Nat) : Char :=
  b64Alphabet.getD n 'A'

/-- Modelled from the spec: `encodeBase64Url`, the unpadded base64url
encoding of a byte sequence (the repository encodes via the platform's
`Buffer.toString("base64url")`, which is not part of the sources; the spec
states the round-trip `decodeBase64Url(encodeBase64Url(b)) = b`). -/
def encodeCore : List Nat → List Char
  | [] => []
  | [x] =>
    [b64Char (x / 4), b64Char ((x % 4) * 16)]
  | [x, y] =>
    [b64Char (x / 4), b64Char ((x % 4) * 16 + y / 16), b64Char ((y % 16) * 4)]
  | x :: y :: z :: rest =>
    b64Char (x / 4) :: b64Char ((x % 4) * 16 + y / 16) ::
    b64Char ((y % 16) * 4 + z / 64) :: b64Char (z % 64) ::
    encodeCore rest

/-- Modelled from the spec: string form of `encodeBase64Url`. -/
def encodeBase64Url (b : List Nat) : String :=
  String.mk (encodeCore b)

/-- Zero bytes the final short chunk of an encoded sequence contributes past
the original bytes (as a function of the byte count modulo 3); the decoder's
buffer bound discards exactly these. -/
def zeroTail : Nat → List Nat
  | 0 => []
  | 1 => [0, 0]
  | _ => [0]

/-! ### Error model

The error classes of `error.js` used by this module, with the context they
carry. -/

/-- Errors thrown by the compat layer: `FetchError(uri, msg)`,
`NonRetryableFetchError(uri, msg)` (a subclass of `FetchError` thrown on a
non-200 status), `NotSupportedError(msg)` and
`JwtInvalidSignatureAlgorithmError(msg)`. -/
inductive CompatError where
  | fetchError (uri : String) (message : String)
  | nonRetryableFetchError (uri : String) (message : String)
  | notSupported (message : String)
  | jwtInvalidSignatureAlgorithm (message : String)
deriving DecidableEq

/-! ### Fetch

Source:
```
fetch: async (uri, requestOptions?, data?) => \x7b
  const responseTimeout = Number(requestOptions?.["responseTimeout"]);
  if (responseTimeout) \x7b
    const abort = new AbortController();
    setTimeout(() => (abort.abort as any)(
      new FetchError(uri, `Response time-out (after $\x7bresponseTimeout\x7d ms.)`)),
      responseTimeout);
    requestOptions = \x7b signal: abort.signal, ...requestOptions \x7d;
  \x7d
  const response = await fetch(uri, \x7b ...requestOptions, body: data \x7d).catch(
    (err) => \x7b throw new FetchError(uri, err.message); \x7d);
  if (response.status !== 200) \x7b
    throw new NonRetryableFetchError(uri, `Status code is $\x7bresponse.status\x7d, expected 200`);
  \x7d
  return response.arrayBuffer();
\x7d
```

The asynchronous transport is modelled by its outcome: either the promise
rejects with a network error, or a response with a status and body arrives;
when a response timeout is armed, the arrival time of the response decides
the race against the abort timer.  An aborted fetch rejects with the abort
reason (the `FetchError` built in the `setTimeout` callback), which the
`.catch` re-wraps into `FetchError(uri, err.message)` — observably a
`FetchError` with the time-out message. -/

/-- Outcome of the underlying `fetch` transport. -/
inductive TransportOutcome where
  | networkError (message : String)
  | response (status : Nat) (body : List Nat)

/-- A JavaScript number as relevant here: `NaN` (e.g. `Number(undefined)` or
`Number` of a non-numeric value) or a non-negative integer. -/
inductive JsNumber where
  | nan
  | num (n : Nat)
deriving DecidableEq

/-- JS truthiness of a number: `false` for `NaN` and `0`. -/
def jsTruthy : JsNumber → Bool
  | .nan => false
  | .num n => n != 0

/-- The fetch result as a function of the transport outcome, once no abort
fired: wrap rejections in `FetchError`, fail non-200 with
`NonRetryableFetchError`, return the body on 200. -/
def fetchResult (uri : String) (transport : TransportOutcome) :
    Except CompatError (List Nat) :=
  match transport with
  | .networkError msg => .error (.fetchError uri msg)
  | .response status body =>
    if status ≠ 200 then
      .error (.nonRetryableFetchError uri
        ("Status code is " ++ toString status ++ ", expected 200"))
    else
      .ok body

/-- `Number(requestOptions?.["responseTimeout"])`: `NaN` when the option is
absent, its numeric value otherwise. -/
def responseTimeoutNumber (responseTimeout : Option JsNumber) : JsNumber :=
  responseTimeout.getD .nan

/-- The time-out value the timer was armed with (only meaningful when the
timer was armed, i.e. when the number is truthy). -/
def timeoutMs (responseTimeout : Option JsNumber) : Nat :=
  match responseTimeoutNumber responseTimeout with
  | .nan => 0
  | .num t => t

/-- Whether the abort timer fires before the response: a timer is armed only
when `Number(responseTimeout)` is truthy, and it wins the race when the
response never arrives or arrives no earlier than the time-out. -/
def timerFires (responseTimeout : Option JsNumber) (arrivalTime : Option Nat) : Bool :=
  match responseTimeoutNumber responseTimeout with
  | .nan => false
  | .num t =>
    t != 0 && (match arrivalTime with
      | none => true
      | some a => t ≤ a)

/-- The compat layer's `fetch`, as a function of the request options'
`responseTimeout`, the response arrival time (`none` = never) and the
transport outcome. -/
def nodeWebCompatFetch (uri : String) (responseTimeout : Option JsNumber)
    (arrivalTime : Option Nat) (transport : TransportOutcome) :
    Except CompatError (List Nat) :=
  if timerFires responseTimeout arrivalTime then
    .error (.fetchError uri
      ("Response time-out (after " ++ toString (timeoutMs responseTimeout) ++ " ms.)"))
  else
    fetchResult uri transport

/-- `defaultFetchTimeouts` of the compat layer. -/
structure DefaultFetchTimeouts where
  response : Nat

/-- Source: `defaultFetchTimeouts: \x7b response: 3000 \x7d`. -/
def defaultFetchTimeouts : DefaultFetchTimeouts :=
  { response := 3000 }

/-! ### Key import and signature verification -/

/-- The fields of a `SignatureJwk` consulted by this module. -/
structure SignatureJwk where
  alg : Option String
  crv : Option String
deriving DecidableEq

/-- Source:
```
enum NamedCurvesWebCrypto \x7b
  ES256 = "P-256", ES384 = "P-384", ES512 = "P-521", // yes, 521
\x7d
```
`none` models the `undefined` of an index outside the enum. -/
def NamedCurvesWebCrypto (alg : String) : Option String :=
  if alg = "ES256" then some "P-256"
  else if alg = "ES384" then some "P-384"
  else if alg = "ES512" then some "P-521"
  else none

/-- Modelled from the spec: the supported JWT signature algorithm names — the
TypeScript union type of `jwtHeaderAlg` (declared outside this module) ranges
over `RS256/RS384/RS512` and `ES256/ES384/ES512` (the algorithms the tests
generate) and `EdDSA` (the code's remaining branch, commented
`Ed25519 or Ed448`). -/
def supportedSignatureAlgorithms : List String :=
  ["RS256", "RS384", "RS512", "ES256", "ES384", "ES512", "EdDSA"]

/-- First two characters of an algorithm name (the JS
`alg.startsWith("RS")` / `alg.startsWith("ES")` tests compare against
these). -/
def algPrefix2 (a : String) : List Char :=
  a.data.take 2

/-- The JS `alg.slice(2)`. -/
def algSuffix (a : String) : String :=
  String.mk (a.data.drop 2)

/-- The effective algorithm: `jwk.alg ?? jwtHeaderAlg`. -/
def effectiveAlg (jwk : SignatureJwk) (jwtHeaderAlg : Option String) : Option String :=
  jwk.alg.orElse (fun _ => jwtHeaderAlg)

/-- The `importKey` algorithm identifier: an `RsaHashedImportParams`, an
`EcKeyImportParams`, or a bare algorithm-name string (the JWK's `crv`,
possibly `undefined` under the source's non-null assertion). -/
inductive KeyImportParams where
  | rsaHashedImportParams (name : String) (hash : String)
  | ecKeyImportParams (name : String) (namedCurve : Option String)
  | algorithmName (name : Option String)
deriving DecidableEq

/-- The `algIdentifier` computed by `transformJwkToKeyObjectAsync` from the
effective algorithm and the JWK's `crv`. -/
def algIdentifierFor (a : String) (crv : Option String) : KeyImportParams :=
  if algPrefix2 a = ['R', 'S'] then
    .rsaHashedImportParams "RSASSA-PKCS1-v1_5" ("SHA-" ++ algSuffix a)
  else if algPrefix2 a = ['E', 'S'] then
    .ecKeyImportParams "ECDSA" (NamedCurvesWebCrypto a)
  else
    .algorithmName crv

/-- The compat layer's `transformJwkToKeyObjectAsync`, returning the
`importKey` request it issues (algorithm identifier) together with the JWK it
attaches to the resulting key object.  The guard `if (!alg)` is JS
truthiness: it also fails on an empty string. -/
def transformJwkToKeyObjectAsync (jwk : SignatureJwk) (jwtHeaderAlg : Option String) :
    Except CompatError (KeyImportParams × SignatureJwk) :=
  match effectiveAlg jwk jwtHeaderAlg with
  | none => .error (.jwtInvalidSignatureAlgorithm "Missing alg on both JWK and JWT header")
  | some a =>
    if a.data = [] then
      .error (.jwtInvalidSignatureAlgorithm "Missing alg on both JWK and JWT header")
    else
      .ok (algIdentifierFor a jwk.crv, jwk)

/-- Source: `transformJwkToKeyObjectSync: () => \x7b throw new
NotSupportedError(...) \x7d` (the arguments of the interface are ignored). -/
def transformJwkToKeyObjectSync (_jwk : SignatureJwk) (_jwtHeaderAlg : Option String) :
    Except CompatError (KeyImportParams × SignatureJwk) :=
  .error (.notSupported
    "Synchronously transforming a JWK into a key object is not supported in the browser")

/-- The algorithm parameter of the `crypto.subtle.verify` call:
`\x7b name: "RSASSA-PKCS1-v1_5" \x7d`, `\x7b name: "ECDSA", hash \x7d`, or
`\x7b name: keyObject.jwk.crv \x7d`. -/
inductive VerifyParams where
  | rsassaPkcs1v15
  | ecdsa (hash : String)
  | namedAlgorithm (name : Option String)
deriving DecidableEq

/-- The algorithm parameter `verifySignatureAsync` passes to
`crypto.subtle.verify`, dispatching on the JWT header's `alg`. -/
def verifyAlgorithmParam (alg : String) (keyJwk : SignatureJwk) : VerifyParams :=
  if algPrefix2 alg = ['R', 'S'] then .rsassaPkcs1v15
  else if algPrefix2 alg = ['E', 'S'] then .ecdsa ("SHA-" ++ algSuffix alg)
  else .namedAlgorithm keyJwk.crv

/-- The compat layer's `verifySignatureAsync`, returning the
`crypto.subtle.verify` call it issues: the algorithm parameter, the decoded
signature bytes (`bufferFromBase64url(signature)`; `none` models its crash)
and the signing input passed through `TextEncoder().encode`. -/
def verifySignatureAsync (alg : String) (keyJwk : SignatureJwk)
    (signature : String) (jwsSigningInput : String) :
    Option (VerifyParams × List Nat × String) :=
  (bufferFromBase64url signature).map
    (fun sig => (verifyAlgorithmParam alg keyJwk, sig, jwsSigningInput))

/-- Source: `verifySignatureSync: () => \x7b throw new NotSupportedError(...)
\x7d`. -/
def verifySignatureSync (_alg : String) (_keyJwk : SignatureJwk)
    (_signature : String) (_jwsSigningInput : String) :
    Except CompatError Bool :=
  .error (.notSupported
    "Synchronously verifying a JWT signature is not supported in the browser")

end NodeWebCompatWeb

namespace NodeWebCompatWeb

example : bufferFromBase64url "A" = some [] := by decide
example : bufferFromBase64url "" = none := by decide
example : bufferFromBase64url "AAAA" = some [0, 0, 0] := by decide
example : bufferFromBase64url "aGVsbG8" = some [104, 101, 108, 108, 111] := by decide
example : bufferFromBase64url "aGVsbG8=" = some [104, 101, 108, 108, 111] := by decide
example : encodeBase64Url [104, 101, 108, 108, 111] = "aGVsbG8" := by decide
example : bufferFromBase64url "!AAA" = some [0, 0, 0] := by decide

/-! ### Decoder lemmas -/

theorem chunksAux_nil_iff (cs : List Char) (cur : List Char) :
    chunksAux cs cur = [] ↔ (cur = [] ∧ ∀ c ∈ cs, isLineTerm c = true) := by
  induction cs generalizing cur with
  | nil =>
    constructor
    · intro h
      by_cases hc : cur = []
      · exact ⟨hc, by simp⟩
      · simp [chunksAux, hc] at h
    · rintro ⟨rfl, -⟩
      simp [chunksAux]
  | cons c rest ih =>
    constructor
    · intro h
      by_cases ht : isLineTerm c
      · by_cases hc : cur = []
        · subst hc
          simp only [chunksAux, ht, if_true] at h
          obtain ⟨-, hrest⟩ := (ih []).mp h
          exact ⟨rfl, by
            intro x hx
            rcases List.mem_cons.mp hx with rfl | hx
            · exact ht
            · exact hrest x hx⟩
        · simp [chunksAux, ht, hc] at h
      · by_cases hl : cur.length = 3
        · simp [chunksAux, ht, hl] at h
        · simp only [chunksAux, ht, if_false, hl, Bool.false_eq_true] at h
          obtain ⟨hcc, -⟩ := (ih (c :: cur)).mp h
          simp at hcc
    · rintro ⟨rfl, hall⟩
      have ht : isLineTerm c = true := hall c (by simp)
      simp only [chunksAux, ht, if_true]
      exact (ih []).mpr ⟨rfl, fun x hx => hall x (by simp [hx])⟩

theorem chunksAux_step (cs : List Char) (hne : cs ≠ [])
    (hterm : ∀ c ∈ cs, isLineTerm c = false) :
    chunksAux cs [] = cs.take 4 :: chunksAux (cs.drop 4) [] := by
  rcases cs with _ | ⟨a, _ | ⟨b, _ | ⟨c, _ | ⟨d, rest⟩⟩⟩⟩
  · exact absurd rfl hne
  · have ha := hterm a (by simp)
    simp [chunksAux, ha]
  · have ha := hterm a (by simp)
    have hb := hterm b (by simp)
    simp [chunksAux, ha, hb]
  · have ha := hterm a (by simp)
    have hb := hterm b (by simp)
    have hc := hterm c (by simp)
    simp [chunksAux, ha, hb, hc]
  · have ha := hterm a (by simp)
    have hb := hterm b (by simp)
    have hc := hterm c (by simp)
    have hd := hterm d (by simp)
    simp [chunksAux, ha, hb, hc, hd]

theorem length_le_four_chunksAux : ∀ (n : Nat) (cs : List Char), cs.length ≤ n →
    (∀ c ∈ cs, isLineTerm c = false) → cs.length ≤ 4 * (chunksAux cs []).length := by
  intro n
  induction n with
  | zero =>
    intro cs h _
    have : cs = [] := List.length_eq_zero.mp (by omega)
    subst this
    simp
  | succ n ih =>
    intro cs h hterm
    rcases eq_or_ne cs [] with rfl | hne
    · simp
    · rw [chunksAux_step cs hne hterm]
      have hpos : 0 < cs.length := List.length_pos.mpr hne
      have h4 : (cs.drop 4).length ≤ n := by
        rw [List.length_drop]
        omega
      have hterm4 : ∀ c ∈ cs.drop 4, isLineTerm c = false :=
        fun c hc => hterm c (List.mem_of_mem_drop hc)
      have hrec := ih (cs.drop 4) h4 hterm4
      rw [List.length_drop] at hrec
      simp only [List.length_cons]
      omega

theorem length_writeChunk (acc : List Nat) (i : Nat) (ch : List Char) :
    (writeChunk acc i ch).length = acc.length := by
  simp [writeChunk]

theorem length_writeAll : ∀ (chunks : List (List Char)) (acc : List Nat) (i : Nat),
    (writeAll acc i chunks).length = acc.length := by
  intro chunks
  induction chunks with
  | nil => intro acc i; rfl
  | cons ch rest ih =>
    intro acc i
    rw [writeAll, ih, length_writeChunk]

theorem writeAll_oob : ∀ (chunks : List (List Char)) (acc : List Nat) (i : Nat),
    acc.length ≤ 3 * i → writeAll acc i chunks = acc := by
  intro chunks
  induction chunks with
  | nil => intro acc i _; rfl
  | cons ch rest ih =>
    intro acc i h
    have hwc : writeChunk acc i ch = acc := by
      unfold writeChunk
      have e1 : acc.set (3 * i) (byte0 ch) = acc := List.set_eq_of_length_le (by omega)
      rw [e1]
      have e2 : acc.set (3 * i + 1) (byte1 ch) = acc := List.set_eq_of_length_le (by omega)
      rw [e2]
      exact List.set_eq_of_length_le (by omega)
    rw [writeAll, hwc]
    exact ih acc (i + 1) (by omega)

theorem length_decodeChunks : ∀ chunks : List (List Char),
    (decodeChunks chunks).length = 3 * chunks.length := by
  intro chunks
  induction chunks with
  | nil => rfl
  | cons ch rest ih =>
    simp only [decodeChunks, chunkBytes, List.length_append, List.length_cons, ih]
    simp
    omega

theorem set_append_len (pre suf : List Nat) (j : Nat) (v : Nat) :
    (pre ++ suf).set (pre.length + j) v = pre ++ suf.set j v := by
  induction pre with
  | nil => simp
  | cons p ps ih =>
    simp only [List.cons_append, List.length_cons]
    have harr : ps.length + 1 + j = (ps.length + j) + 1 := by omega
    rw [harr, List.set_cons_succ, ih]

theorem writeAll_eq : ∀ (chunks : List (List Char)) (pre suf : List Nat) (i : Nat),
    pre.length = 3 * i →
    writeAll (pre ++ suf) i chunks =
      pre ++ (List.take suf.length (decodeChunks chunks) ++
        List.drop (3 * chunks.length) suf) := by
  intro chunks
  induction chunks with
  | nil =>
    intro pre suf i hpre
    simp [writeAll, decodeChunks]
  | cons ch rest ih =>
    intro pre suf i hpre
    rw [writeAll]
    have hw : writeChunk (pre ++ suf) i ch =
        pre ++ ((suf.set 0 (byte0 ch)).set 1 (byte1 ch)).set 2 (byte2 ch) := by
      unfold writeChunk
      have h0 : 3 * i = pre.length + 0 := by omega
      rw [h0, set_append_len]
      have h1 : pre.length + 0 + 1 = pre.length + 1 := by omega
      rw [h1, set_append_len]
      have h2 : pre.length + 1 + 1 = pre.length + 2 := by omega
      rw [h2, set_append_len]
    rw [hw]
    rcases suf with _ | ⟨s0, _ | ⟨s1, _ | ⟨s2, t⟩⟩⟩
    · simp only [List.set_nil]
      rw [writeAll_oob rest (pre ++ []) (i + 1)
        (by simp only [List.append_nil, hpre]; omega)]
      simp
    · simp only [List.set_cons_zero, List.set_cons_succ, List.set_nil]
      rw [writeAll_oob rest (pre ++ [byte0 ch]) (i + 1)
        (by simp only [List.length_append, List.length_cons, List.length_nil, hpre]; omega)]
      simp only [decodeChunks, chunkBytes, List.length_cons, List.length_nil]
      simp [List.take, List.drop]
    · simp only [List.set_cons_zero, List.set_cons_succ, List.set_nil]
      rw [writeAll_oob rest (pre ++ [byte0 ch, byte1 ch]) (i + 1)
        (by simp only [List.length_append, List.length_cons, List.length_nil, hpre]; omega)]
      simp only [decodeChunks, chunkBytes, List.length_cons, List.length_nil]
      simp [List.take, List.drop]
    · simp only [List.set_cons_zero, List.set_cons_succ]
      have hgroup : pre ++ byte0 ch :: byte1 ch :: byte2 ch :: t =
          (pre ++ [byte0 ch, byte1 ch, byte2 ch]) ++ t := by
        simp
      rw [hgroup, ih (pre ++ [byte0 ch, byte1 ch, byte2 ch]) t (i + 1)
        (by simp only [List.length_append, List.length_cons, List.length_nil, hpre]; omega)]
      have htake : List.take (s0 :: s1 :: s2 :: t).length (decodeChunks (ch :: rest)) =
          [byte0 ch, byte1 ch, byte2 ch] ++ List.take t.length (decodeChunks rest) := by
        have hl : (s0 :: s1 :: s2 :: t).length =
            ([byte0 ch, byte1 ch, byte2 ch] : List Nat).length + t.length := by
          simp only [List.length_cons, List.length_nil]
          omega
        rw [hl]
        simp only [decodeChunks, chunkBytes]
        rw [List.take_append]
      have hdrop : List.drop (3 * (ch :: rest).length) (s0 :: s1 :: s2 :: t) =
          List.drop (3 * rest.length) t := by
        simp only [List.length_cons]
        have hl : 3 * (rest.length + 1) = 3 * rest.length + 1 + 1 + 1 := by omega
        rw [hl, List.drop_succ_cons, List.drop_succ_cons, List.drop_succ_cons]
      rw [htake, hdrop]
      simp

theorem decodeCore_some (cs : List Char) (hne : stripPadding cs ≠ [])
    (hterm : ∀ c ∈ stripPadding cs, isLineTerm c = false) :
    decodeCore cs =
      some (List.take (3 * (stripPadding cs).length / 4)
        (decodeChunks (chunksAux (stripPadding cs) []))) := by
  have hchne : chunksAux (stripPadding cs) [] ≠ [] := by
    rw [Ne, chunksAux_nil_iff]
    rintro ⟨-, hall⟩
    obtain ⟨c, hc⟩ := List.exists_mem_of_ne_nil _ hne
    have := hall c hc
    rw [hterm c hc] at this
    exact Bool.false_ne_true this
  rcases hch : chunksAux (stripPadding cs) [] with _ | ⟨c0, crest⟩
  · exact absurd hch hchne
  · unfold decodeCore
    rw [hch]
    change some (writeAll
      (List.replicate (3 * (stripPadding cs).length / 4) 0) 0 (c0 :: crest)) = _
    have hwa := writeAll_eq (c0 :: crest) []
      (List.replicate (3 * (stripPadding cs).length / 4) 0) 0 (by simp)
    simp only [List.nil_append] at hwa
    rw [hwa, List.length_replicate]
    have hlen4 := length_le_four_chunksAux (stripPadding cs).length (stripPadding cs)
      le_rfl hterm
    rw [hch] at hlen4
    have hdrop : List.drop (3 * (c0 :: crest).length)
        (List.replicate (3 * (stripPadding cs).length / 4) (0 : Nat)) = [] := by
      apply List.drop_eq_nil_of_le
      rw [List.length_replicate]
      simp only [List.length_cons] at hlen4 ⊢
      omega
    rw [hdrop]
    simp

theorem stripPadding_no_pad (cs : List Char) (h : ∀ c ∈ cs, c ≠ '=') :
    stripPadding cs = cs := by
  unfold stripPadding
  rcases hrev : cs.reverse with _ | ⟨c1, r⟩
  · simp
  · have hc1 : c1 ≠ '=' := by
      apply h
      rw [← List.mem_reverse, hrev]
      simp
    simp [List.take_succ_cons, hc1]

theorem stripPadding_with_pad (t p : List Char) (ht : t ≠ [])
    (halph : ∀ c ∈ t, c ≠ '=')
    (hp : p = [] ∨ p = ['='] ∨ p = ['=', '=']) :
    stripPadding (t ++ p) = t := by
  rcases hp with rfl | rfl | rfl
  · rw [List.append_nil]
    exact stripPadding_no_pad t halph
  · unfold stripPadding
    have hrev : (t ++ ['=']).reverse = '=' :: t.reverse := by simp
    rw [hrev]
    rcases htr : t.reverse with _ | ⟨c1, r⟩
    · exact absurd (by simpa using congrArg List.reverse htr) ht
    · have hc1 : c1 ≠ '=' := by
        apply halph
        rw [← List.mem_reverse, htr]
        simp
      have ht2 : ¬ (('=' :: c1 :: r).take 2 = ['=', '=']) := by
        simp [List.take_succ_cons, hc1]
      rw [if_neg ht2, if_pos (by simp [List.take_succ_cons])]
      rw [show ('=' :: c1 :: r).drop 1 = c1 :: r from rfl, ← htr, List.reverse_reverse]
  · unfold stripPadding
    have hrev : (t ++ ['=', '=']).reverse = '=' :: '=' :: t.reverse := by simp
    rw [hrev]
    rw [if_pos (by simp [List.take_succ_cons])]
    rw [show ('=' :: '=' :: t.reverse).drop 2 = t.reverse from rfl, List.reverse_reverse]

/-! ### Claim C3: decoder validation behaviour -/

/-- C3 counterexample: the claim states the decoder fails with `InvalidJwt`
on an input whose length mod 4 is 1 and on inputs with characters outside
the base64url alphabet; in fact `"A"` (length 1) decodes to the empty byte
array and `"!AAA"` (containing `!`) decodes to three bytes — the decoder
never raises `InvalidJwt`. -/
theorem base64_decoder_validation_counterexample :
    bufferFromBase64url "A" = some [] ∧
    bufferFromBase64url "!AAA" = some [0, 0, 0] :=
  ⟨by decide, by decide⟩

/-- C3 (amended): the decoder accepts the base64url alphabet and tolerates
one or two trailing `=`, but performs no validation: characters outside the
alphabet contribute zero bits, inputs of length mod 4 = 1 are decoded
rather than rejected, and no `InvalidJwt` is raised; the only failing
inputs are those whose stripped form consists solely of line terminators
(in particular the empty string), which crash with a `TypeError`. -/
theorem base64_decoder_no_validation (s : String) :
    ((stripPadding s.data).all isLineTerm = true → bufferFromBase64url s = none) ∧
    (bufferFromBase64url s = none → (stripPadding s.data).all isLineTerm = true) := by
  have hiff : bufferFromBase64url s = none ↔ chunksAux (stripPadding s.data) [] = [] := by
    unfold bufferFromBase64url decodeCore
    rcases hch : chunksAux (stripPadding s.data) [] with _ | ⟨c0, crest⟩
    · simp
    · simp
  constructor
  · intro h
    rw [hiff, chunksAux_nil_iff]
    exact ⟨rfl, fun c hc => List.all_eq_true.mp h c hc⟩
  · intro h
    rw [hiff, chunksAux_nil_iff] at h
    exact List.all_eq_true.mpr h.2

/-- Witness for the amended C3 at a concrete input: `"=="` strips to the
empty string and the decoder fails (with a `TypeError`, not
`InvalidJwt`). -/
theorem base64_decoder_no_validation_witness :
    bufferFromBase64url "==" = none :=
  (base64_decoder_no_validation "==").1 (by decide)

/-! ### Claim C9: output length -/

theorem alph_not_term : ∀ c ∈ b64Alphabet, isLineTerm c = false := by decide

/-- C9: for a non-empty input over the base64url alphabet followed by at
most two `=` padding characters, whose stripped length `n` satisfies
`n % 4 ≠ 1`, the decoder succeeds and returns exactly `3 * n / 4` bytes
(the bytes the final short chunk writes past this length are discarded by
the buffer bound). -/
theorem base64_decoder_output_length (t p : List Char) (ht : t ≠ [])
    (halph : ∀ c ∈ t, c ∈ b64Alphabet)
    (hp : p = [] ∨ p = ['='] ∨ p = ['=', '='])
    (_hmod : t.length % 4 ≠ 1) :
    ∃ l, bufferFromBase64url (String.mk (t ++ p)) = some l ∧
      l.length = 3 * t.length / 4 := by
  have hne : ∀ c ∈ t, c ≠ '=' := by
    intro c hc he
    have h1 := halph c hc
    rw [he] at h1
    exact absurd h1 (by decide)
  have hstrip : stripPadding (t ++ p) = t := stripPadding_with_pad t p ht hne hp
  have hterm : ∀ c ∈ t, isLineTerm c = false :=
    fun c hc => alph_not_term c (halph c hc)
  have hchne : chunksAux t [] ≠ [] := by
    rw [Ne, chunksAux_nil_iff]
    rintro ⟨-, hall⟩
    obtain ⟨c, hc⟩ := List.exists_mem_of_ne_nil t ht
    have h1 := hall c hc
    rw [hterm c hc] at h1
    exact Bool.false_ne_true h1
  show ∃ l, decodeCore (t ++ p) = some l ∧ l.length = 3 * t.length / 4
  unfold decodeCore
  rw [hstrip]
  rcases hch : chunksAux t [] with _ | ⟨c0, crest⟩
  · exact absurd hch hchne
  · change ∃ l, some (writeAll (List.replicate (3 * t.length / 4) 0) 0 (c0 :: crest)) =
      some l ∧ l.length = 3 * t.length / 4
    refine ⟨_, rfl, ?_⟩
    rw [length_writeAll, List.length_replicate]

/-- Witness for C9 at a concrete input. -/
theorem base64_decoder_output_length_witness :
    ∃ l, bufferFromBase64url (String.mk (['a', 'b', 'c', 'd', 'e', 'f'] ++ ['='])) =
      some l ∧ l.length = 3 * (['a', 'b', 'c', 'd', 'e', 'f'] : List Char).length / 4 :=
  base64_decoder_output_length ['a', 'b', 'c', 'd', 'e', 'f'] ['='] (by decide)
    (by decide) (Or.inr (Or.inl rfl)) (by decide)

/-! ### Claim C4: round-trip -/

theorem b64Char_mem (n : Nat) : b64Char n ∈ b64Alphabet := by
  by_cases hn : n < 64
  · exact (by decide : ∀ m, m < 64 → b64Char m ∈ b64Alphabet) n hn
  · unfold b64Char
    rw [List.getD_eq_default]
    · decide
    · have : b64Alphabet.length = 64 := by decide
      omega

theorem b64val_b64Char : ∀ v, v < 64 → b64val (b64Char v) = some v := by
  decide

theorem shf0 : ∀ a, a < 64 → ∀ b, b < 64 →
    ((a <<< 2) ||| (b >>> 4)) % 256 = a * 4 + b / 16 := by
  decide

theorem shf1 : ∀ b, b < 64 → ∀ c, c < 64 →
    (((b &&& 15) <<< 4) ||| (c >>> 2)) % 256 = (b % 16) * 16 + c / 4 := by
  decide

theorem shf2 : ∀ c, c < 64 → ∀ d, d < 64 →
    (((c &&& 3) <<< 6) ||| d) % 256 = (c % 4) * 64 + d := by
  decide

theorem chunkBytes_group1 (x : Nat) (hx : x < 256) :
    chunkBytes [b64Char (x / 4), b64Char ((x % 4) * 16)] = [x, 0, 0] := by
  have h0 : x / 4 < 64 := by omega
  have h1 : (x % 4) * 16 < 64 := by omega
  unfold chunkBytes byte0 byte1 byte2 sixv
  simp only [List.get?, Option.some_bind, Option.none_bind, Option.getD_some,
    Option.getD_none]
  rw [b64val_b64Char _ h0, b64val_b64Char _ h1]
  simp only [Option.getD_some]
  rw [shf0 _ h0 _ h1, shf1 _ h1 0 (by omega), shf2 0 (by omega) 0 (by omega)]
  simp only [List.cons.injEq, and_true]
  omega

theorem chunkBytes_group2 (x y : Nat) (hx : x < 256) (hy : y < 256) :
    chunkBytes [b64Char (x / 4), b64Char ((x % 4) * 16 + y / 16),
      b64Char ((y % 16) * 4)] = [x, y, 0] := by
  have h0 : x / 4 < 64 := by omega
  have h1 : (x % 4) * 16 + y / 16 < 64 := by omega
  have h2 : (y % 16) * 4 < 64 := by omega
  unfold chunkBytes byte0 byte1 byte2 sixv
  simp only [List.get?, Option.some_bind, Option.none_bind, Option.getD_some,
    Option.getD_none]
  rw [b64val_b64Char _ h0, b64val_b64Char _ h1, b64val_b64Char _ h2]
  simp only [Option.getD_some]
  rw [shf0 _ h0 _ h1, shf1 _ h1 _ h2, shf2 _ h2 0 (by omega)]
  simp only [List.cons.injEq, and_true]
  omega

theorem chunkBytes_group3 (x y z : Nat) (hx : x < 256) (hy : y < 256) (hz : z < 256) :
    chunkBytes [b64Char (x / 4), b64Char ((x % 4) * 16 + y / 16),
      b64Char ((y % 16) * 4 + z / 64), b64Char (z % 64)] = [x, y, z] := by
  have h0 : x / 4 < 64 := by omega
  have h1 : (x % 4) * 16 + y / 16 < 64 := by omega
  have h2 : (y % 16) * 4 + z / 64 < 64 := by omega
  have h3 : z % 64 < 64 := by omega
  unfold chunkBytes byte0 byte1 byte2 sixv
  simp only [List.get?, Option.some_bind, Option.none_bind, Option.getD_some,
    Option.getD_none]
  rw [b64val_b64Char _ h0, b64val_b64Char _ h1, b64val_b64Char _ h2, b64val_b64Char _ h3]
  simp only [Option.getD_some]
  rw [shf0 _ h0 _ h1, shf1 _ h1 _ h2, shf2 _ h2 _ h3]
  simp only [List.cons.injEq, and_true]
  omega

theorem encodeCore_mem : ∀ (b : List Nat), ∀ c ∈ encodeCore b, c ∈ b64Alphabet
  | [] => by simp [encodeCore]
  | [x] => by
    intro c hc
    simp only [encodeCore, List.mem_cons, List.not_mem_nil, or_false] at hc
    rcases hc with rfl | rfl <;> exact b64Char_mem _
  | [x, y] => by
    intro c hc
    simp only [encodeCore, List.mem_cons, List.not_mem_nil, or_false] at hc
    rcases hc with rfl | rfl | rfl <;> exact b64Char_mem _
  | x :: y :: z :: rest => by
    intro c hc
    simp only [encodeCore, List.mem_cons] at hc
    rcases hc with rfl | rfl | rfl | rfl | hc
    · exact b64Char_mem _
    · exact b64Char_mem _
    · exact b64Char_mem _
    · exact b64Char_mem _
    · exact encodeCore_mem rest c hc

theorem encodeCore_ne_nil : ∀ (b : List Nat), b ≠ [] → encodeCore b ≠ []
  | [], h => absurd rfl h
  | [_], _ => by simp [encodeCore]
  | [_, _], _ => by simp [encodeCore]
  | _ :: _ :: _ :: _, _ => by simp [encodeCore]

theorem take_four_cons (a b c d : Char) (l : List Char) :
    List.take 4 (a :: b :: c :: d :: l) = [a, b, c, d] := rfl

theorem drop_four_cons (a b c d : Char) (l : List Char) :
    List.drop 4 (a :: b :: c :: d :: l) = l := rfl

theorem decode_encode_chunks : ∀ (b : List Nat), (∀ x ∈ b, x < 256) →
    decodeChunks (chunksAux (encodeCore b) []) = b ++ zeroTail (b.length % 3)
  | [], _ => by simp [encodeCore, chunksAux, decodeChunks, zeroTail]
  | [x], h => by
    have hx := h x (by simp)
    have h0 := alph_not_term _ (b64Char_mem (x / 4))
    have h1 := alph_not_term _ (b64Char_mem ((x % 4) * 16))
    show decodeChunks (chunksAux [b64Char (x / 4), b64Char ((x % 4) * 16)] []) = _
    rw [show chunksAux [b64Char (x / 4), b64Char ((x % 4) * 16)] [] =
        [[b64Char (x / 4), b64Char ((x % 4) * 16)]] from by
      simp [chunksAux, h0, h1]]
    simp only [decodeChunks, List.append_nil]
    rw [chunkBytes_group1 x hx]
    rfl
  | [x, y], h => by
    have hx := h x (by simp)
    have hy := h y (by simp)
    have h0 := alph_not_term _ (b64Char_mem (x / 4))
    have h1 := alph_not_term _ (b64Char_mem ((x % 4) * 16 + y / 16))
    have h2 := alph_not_term _ (b64Char_mem ((y % 16) * 4))
    show decodeChunks (chunksAux [b64Char (x / 4), b64Char ((x % 4) * 16 + y / 16),
      b64Char ((y % 16) * 4)] []) = _
    rw [show chunksAux [b64Char (x / 4), b64Char ((x % 4) * 16 + y / 16),
        b64Char ((y % 16) * 4)] [] =
        [[b64Char (x / 4), b64Char ((x % 4) * 16 + y / 16),
          b64Char ((y % 16) * 4)]] from by
      simp [chunksAux, h0, h1, h2]]
    simp only [decodeChunks, List.append_nil]
    rw [chunkBytes_group2 x y hx hy]
    rfl
  | x :: y :: z :: rest, h => by
    have hx := h x (by simp)
    have hy := h y (by simp)
    have hz := h z (by simp)
    have hrest : ∀ w ∈ rest, w < 256 := fun w hw => h w (by simp [hw])
    have hterm : ∀ c ∈ encodeCore (x :: y :: z :: rest), isLineTerm c = false :=
      fun c hc => alph_not_term c (encodeCore_mem _ c hc)
    rw [chunksAux_step _ (encodeCore_ne_nil _ (by simp)) hterm]
    simp only [encodeCore]
    rw [take_four_cons, drop_four_cons]
    simp only [decodeChunks]
    rw [chunkBytes_group3 x y z hx hy hz, decode_encode_chunks rest hrest]
    have hmod3 : (rest.length + 1 + 1 + 1) % 3 = rest.length % 3 := by omega
    simp only [List.length_cons, hmod3]
    simp

theorem encode_length_div : ∀ (b : List Nat), 3 * (encodeCore b).length / 4 = b.length
  | [] => by simp [encodeCore]
  | [_] => by simp [encodeCore]
  | [_, _] => by simp [encodeCore]
  | x :: y :: z :: rest => by
    have ih := encode_length_div rest
    simp only [encodeCore, List.length_cons]
    omega

/-- C4 counterexample: the claim includes the empty byte sequence, but the
decoder crashes on the empty string (`match` returns `null` and the reduce
throws a `TypeError`), so the round-trip fails there. -/
theorem base64_roundtrip_empty_counterexample :
    bufferFromBase64url (encodeBase64Url []) = none := by decide

/-- C4 (amended): decoding the unpadded base64url encoding of `b` returns
exactly `b` for every non-empty byte sequence `b`; on the empty sequence
the decoder fails instead of returning the empty sequence. -/
theorem base64_roundtrip (b : List Nat) (hb : b ≠ []) (hlt : ∀ x ∈ b, x < 256) :
    bufferFromBase64url (encodeBase64Url b) = some b := by
  have hmem : ∀ c ∈ encodeCore b, c ∈ b64Alphabet := encodeCore_mem b
  have hne : ∀ c ∈ encodeCore b, c ≠ '=' := by
    intro c hc he
    have h1 := hmem c hc
    rw [he] at h1
    exact absurd h1 (by decide)
  have hstrip : stripPadding (encodeCore b) = encodeCore b := stripPadding_no_pad _ hne
  have hterm : ∀ c ∈ stripPadding (encodeCore b), isLineTerm c = false := by
    rw [hstrip]
    exact fun c hc => alph_not_term c (hmem c hc)
  have hns : stripPadding (encodeCore b) ≠ [] := by
    rw [hstrip]
    exact encodeCore_ne_nil b hb
  show decodeCore (encodeCore b) = some b
  rw [decodeCore_some _ hns hterm, hstrip, decode_encode_chunks b hlt,
    encode_length_div]
  congr 1
  exact List.take_left b (zeroTail (b.length % 3))

/-- Witness for the amended C4 at a concrete input. -/
theorem base64_roundtrip_witness :
    bufferFromBase64url (encodeBase64Url [72, 105, 33]) = some [72, 105, 33] :=
  base64_roundtrip [72, 105, 33] (by decide) (by decide)

/-! ### Claim C1: fetch outcome classification -/

/-- C1: for every call to the compat-layer fetch (here: whenever no abort
timer fires), a transport rejection yields `FetchError` with the URI and the
underlying message, a non-200 status yields `NonRetryableFetchError`, and a
200 status returns the body bytes. -/
theorem compat_fetch_transport_outcomes (uri : String) (rt : Option JsNumber)
    (arr : Option Nat) (h : timerFires rt arr = false) :
    (∀ msg, nodeWebCompatFetch uri rt arr (.networkError msg) =
      .error (.fetchError uri msg)) ∧
    (∀ status body, status ≠ 200 →
      nodeWebCompatFetch uri rt arr (.response status body) =
        .error (.nonRetryableFetchError uri
          ("Status code is " ++ toString status ++ ", expected 200"))) ∧
    (∀ body, nodeWebCompatFetch uri rt arr (.response 200 body) = .ok body) := by
  refine ⟨fun msg => ?_, fun status body hs => ?_, fun body => ?_⟩
  · simp [nodeWebCompatFetch, h, fetchResult]
  · simp [nodeWebCompatFetch, h, fetchResult, hs]
  · simp [nodeWebCompatFetch, h, fetchResult]

/-- Witness for C1 at concrete inputs. -/
theorem compat_fetch_transport_outcomes_witness :
    nodeWebCompatFetch "https://example.com/jwks.json" none none
      (.networkError "socket hang up") =
      .error (.fetchError "https://example.com/jwks.json" "socket hang up") ∧
    nodeWebCompatFetch "https://example.com/jwks.json" none none (.response 404 []) =
      .error (.nonRetryableFetchError "https://example.com/jwks.json"
        ("Status code is " ++ toString 404 ++ ", expected 200")) ∧
    nodeWebCompatFetch "https://example.com/jwks.json" none none (.response 200 [123]) =
      .ok [123] := by
  have h := compat_fetch_transport_outcomes "https://example.com/jwks.json" none none
    (by decide)
  exact ⟨h.1 "socket hang up", h.2.1 404 [] (by decide), h.2.2 [123]⟩

/-! ### Claim C7: response timeout -/

/-- C7: with a positive `responseTimeout` whose timer wins the race (the
response arrives no earlier than the time-out, or never), the fetch fails
with a `FetchError` carrying the time-out message, whatever the transport
would have produced; and the compat layer's default response timeout is
3000 ms. -/
theorem compat_fetch_timeout (uri : String) (t : Nat) (arr : Option Nat)
    (tr : TransportOutcome) (ht : 0 < t) (harr : ∀ a, arr = some a → t ≤ a) :
    nodeWebCompatFetch uri (some (.num t)) arr tr =
      .error (.fetchError uri
        ("Response time-out (after " ++ toString t ++ " ms.)")) ∧
    defaultFetchTimeouts.response = 3000 := by
  have hf : timerFires (some (.num t)) arr = true := by
    cases arr with
    | none =>
      simp [timerFires, responseTimeoutNumber]
      omega
    | some a =>
      have := harr a rfl
      simp [timerFires, responseTimeoutNumber, this]
      omega
  exact ⟨by simp [nodeWebCompatFetch, hf, timeoutMs, responseTimeoutNumber], rfl⟩

/-- Witness for C7 at concrete inputs (time-out 3000 ms, response never
arrives). -/
theorem compat_fetch_timeout_witness :
    nodeWebCompatFetch "https://example.com/jwks.json" (some (.num 3000)) none
      (.response 200 [1, 2]) =
      .error (.fetchError "https://example.com/jwks.json"
        ("Response time-out (after " ++ toString 3000 ++ " ms.)")) ∧
    defaultFetchTimeouts.response = 3000 :=
  compat_fetch_timeout "https://example.com/jwks.json" 3000 none (.response 200 [1, 2])
    (by decide) (fun a h => by cases h)

/-! ### Claim C10: timeout only when truthy -/

/-- C10: the fetch arms an abort timer only when `Number(responseTimeout)` is
truthy: when the option is absent, `0`, or not a number, the result is
exactly the transport's outcome (a `responseTimeout` of 0 disables the
timeout), regardless of the arrival time. -/
theorem compat_fetch_no_timer_when_falsy (uri : String) (arr : Option Nat)
    (tr : TransportOutcome) :
    nodeWebCompatFetch uri none arr tr = fetchResult uri tr ∧
    nodeWebCompatFetch uri (some (.num 0)) arr tr = fetchResult uri tr ∧
    nodeWebCompatFetch uri (some .nan) arr tr = fetchResult uri tr := by
  refine ⟨?_, ?_, ?_⟩ <;> simp [nodeWebCompatFetch, timerFires, responseTimeoutNumber]

/-! ### Claim C6: synchronous surfaces -/

/-- C6: both synchronous entry points fail with `NotSupported` on every
input, while the asynchronous surfaces are real implementations: the async
key import either succeeds or fails with `JwtInvalidSignatureAlgorithm`
(never `NotSupported`), and the async verify issues its `subtle.verify` call
whenever the signature decodes. -/
theorem sync_surfaces_not_supported (jwk : SignatureJwk) (hint : Option String)
    (alg : String) (keyJwk : SignatureJwk) (sig inp : String) :
    transformJwkToKeyObjectSync jwk hint =
      .error (.notSupported
        "Synchronously transforming a JWK into a key object is not supported in the browser") ∧
    verifySignatureSync alg keyJwk sig inp =
      .error (.notSupported
        "Synchronously verifying a JWT signature is not supported in the browser") ∧
    ((∃ p, transformJwkToKeyObjectAsync jwk hint = .ok p) ∨
      (∃ m, transformJwkToKeyObjectAsync jwk hint =
        .error (.jwtInvalidSignatureAlgorithm m))) ∧
    (∀ b, bufferFromBase64url sig = some b →
      verifySignatureAsync alg keyJwk sig inp =
        some (verifyAlgorithmParam alg keyJwk, b, inp)) := by
  refine ⟨rfl, rfl, ?_, fun b hb => by simp [verifySignatureAsync, hb]⟩
  unfold transformJwkToKeyObjectAsync
  cases effectiveAlg jwk hint with
  | none => exact Or.inr ⟨_, rfl⟩
  | some a =>
    by_cases hd : a.data = []
    · exact Or.inr ⟨"Missing alg on both JWK and JWT header", by simp [hd]⟩
    · exact Or.inl ⟨(algIdentifierFor a jwk.crv, jwk), by simp [hd]⟩

/-- Witness for C6 at concrete inputs. -/
theorem sync_surfaces_not_supported_witness :
    transformJwkToKeyObjectSync ⟨some "RS256", none⟩ none =
      .error (.notSupported
        "Synchronously transforming a JWK into a key object is not supported in the browser") ∧
    verifySignatureAsync "RS256" ⟨some "RS256", none⟩ "AAAA" "header.payload" =
      some (verifyAlgorithmParam "RS256" ⟨some "RS256", none⟩, [0, 0, 0],
        "header.payload") := by
  have h := sync_surfaces_not_supported ⟨some "RS256", none⟩ none "RS256"
    ⟨some "RS256", none⟩ "AAAA" "header.payload"
  exact ⟨h.1, h.2.2.2 [0, 0, 0] (by decide)⟩

/-! ### Claim C5: effective algorithm selection -/

/-- C5: the effective algorithm for key import is the JWK's `alg` when
present, else the JWT header's hint; with neither present the import fails
with `JwtInvalidSignatureAlgorithm`. -/
theorem effective_algorithm_selection (jwk : SignatureJwk) (hint : Option String) :
    (∀ a, jwk.alg = some a → a ∈ supportedSignatureAlgorithms →
      transformJwkToKeyObjectAsync jwk hint = .ok (algIdentifierFor a jwk.crv, jwk)) ∧
    (∀ h, jwk.alg = none → hint = some h → h ∈ supportedSignatureAlgorithms →
      transformJwkToKeyObjectAsync jwk hint = .ok (algIdentifierFor h jwk.crv, jwk)) ∧
    (jwk.alg = none → hint = none →
      transformJwkToKeyObjectAsync jwk hint =
        .error (.jwtInvalidSignatureAlgorithm "Missing alg on both JWK and JWT header")) := by
  obtain ⟨jalg, jcrv⟩ := jwk
  refine ⟨fun a ha hmem => ?_, fun h ha hh hmem => ?_, fun ha hh => ?_⟩
  · simp only at ha
    subst ha
    have heff : effectiveAlg ⟨some a, jcrv⟩ hint = some a := rfl
    have hne : a.data ≠ [] := by
      simp [supportedSignatureAlgorithms] at hmem
      rcases hmem with rfl | rfl | rfl | rfl | rfl | rfl | rfl <;> decide
    unfold transformJwkToKeyObjectAsync
    rw [heff]
    simp [hne]
  · simp only at ha
    subst ha
    subst hh
    have heff : effectiveAlg ⟨none, jcrv⟩ (some h) = some h := rfl
    have hne : h.data ≠ [] := by
      simp [supportedSignatureAlgorithms] at hmem
      rcases hmem with rfl | rfl | rfl | rfl | rfl | rfl | rfl <;> decide
    unfold transformJwkToKeyObjectAsync
    rw [heff]
    simp [hne]
  · simp only at ha
    subst ha
    subst hh
    rfl

/-- Witness for C5 at concrete inputs: `jwk.alg` wins over the header hint,
the hint is used when `jwk.alg` is absent, and both absent fails. -/
theorem effective_algorithm_selection_witness :
    transformJwkToKeyObjectAsync ⟨some "RS256", none⟩ (some "ES256") =
      .ok (algIdentifierFor "RS256" none, ⟨some "RS256", none⟩) ∧
    transformJwkToKeyObjectAsync ⟨none, none⟩ (some "ES256") =
      .ok (algIdentifierFor "ES256" none, ⟨none, none⟩) ∧
    transformJwkToKeyObjectAsync ⟨none, none⟩ none =
      .error (.jwtInvalidSignatureAlgorithm "Missing alg on both JWK and JWT header") := by
  refine ⟨?_, ?_, ?_⟩
  · exact (effective_algorithm_selection ⟨some "RS256", none⟩ (some "ES256")).1
      "RS256" rfl (by decide)
  · exact (effective_algorithm_selection ⟨none, none⟩ (some "ES256")).2.1
      "ES256" rfl rfl (by decide)
  · exact (effective_algorithm_selection ⟨none, none⟩ none).2.2 rfl rfl

/-! ### Claim C2: ECDSA curve mapping -/

/-- C2: the algorithm-to-curve mapping is exactly `ES256 → P-256`,
`ES384 → P-384`, `ES512 → P-521` (not `P-512`), and every JWK whose
effective algorithm starts with `ES` is imported with algorithm name
`ECDSA` and that curve. -/
theorem es_curve_mapping :
    NamedCurvesWebCrypto "ES256" = some "P-256" ∧
    NamedCurvesWebCrypto "ES384" = some "P-384" ∧
    NamedCurvesWebCrypto "ES512" = some "P-521" ∧
    (NamedCurvesWebCrypto "ES512" == some "P-512") = false ∧
    ∀ (jwk : SignatureJwk) (hint : Option String) (a : String),
      effectiveAlg jwk hint = some a → a ∈ supportedSignatureAlgorithms →
      algPrefix2 a = ['E', 'S'] →
      ∃ crv, NamedCurvesWebCrypto a = some crv ∧
        transformJwkToKeyObjectAsync jwk hint =
          .ok (.ecKeyImportParams "ECDSA" (some crv), jwk) := by
  refine ⟨by decide, by decide, by decide, by decide, ?_⟩
  intro jwk hint a heff hmem hpre
  simp [supportedSignatureAlgorithms] at hmem
  rcases hmem with rfl | rfl | rfl | rfl | rfl | rfl | rfl <;>
    first
      | (exfalso; revert hpre; decide)
      | (refine ⟨_, rfl, ?_⟩
         unfold transformJwkToKeyObjectAsync
         rw [heff]
         rfl)

/-- Witness for C2 at a concrete input: an `ES512` header hint imports with
`ECDSA` over `P-521`. -/
theorem es_curve_mapping_witness :
    transformJwkToKeyObjectAsync ⟨none, none⟩ (some "ES512") =
      .ok (.ecKeyImportParams "ECDSA" (some "P-521"), ⟨none, none⟩) := by
  obtain ⟨crv, hc, ht⟩ := (es_curve_mapping).2.2.2.2 ⟨none, none⟩ (some "ES512")
    "ES512" rfl (by decide) (by decide)
  have h0 : NamedCurvesWebCrypto "ES512" = some "P-521" := by decide
  rw [h0] at hc
  cases hc
  exact ht

/-! ### Claim C8: verify dispatch -/

/-- C8: `verifySignatureAsync` dispatches on the algorithm name: `RS*`
verifies with RSASSA-PKCS1-v1_5, `ES256/384/512` with ECDSA and
SHA-256/384/512 per the numeric suffix, and the remaining supported
algorithm (`EdDSA`) with the curve name from the key's JWK `crv`. -/
theorem verify_signature_dispatch (alg : String) (keyJwk : SignatureJwk)
    (sig inp : String) (bytes : List Nat)
    (hb : bufferFromBase64url sig = some bytes) :
    (algPrefix2 alg = ['R', 'S'] →
      verifySignatureAsync alg keyJwk sig inp = some (.rsassaPkcs1v15, bytes, inp)) ∧
    (alg = "ES256" →
      verifySignatureAsync alg keyJwk sig inp = some (.ecdsa "SHA-256", bytes, inp)) ∧
    (alg = "ES384" →
      verifySignatureAsync alg keyJwk sig inp = some (.ecdsa "SHA-384", bytes, inp)) ∧
    (alg = "ES512" →
      verifySignatureAsync alg keyJwk sig inp = some (.ecdsa "SHA-512", bytes, inp)) ∧
    (alg = "EdDSA" →
      verifySignatureAsync alg keyJwk sig inp =
        some (.namedAlgorithm keyJwk.crv, bytes, inp)) := by
  refine ⟨fun hp => ?_, fun h => ?_, fun h => ?_, fun h => ?_, fun h => ?_⟩
  · simp [verifySignatureAsync, hb, verifyAlgorithmParam, hp]
  all_goals subst h
  all_goals simp [verifySignatureAsync, hb, verifyAlgorithmParam, algPrefix2, algSuffix]

/-- Witness for C8 at concrete inputs. -/
theorem verify_signature_dispatch_witness :
    verifySignatureAsync "ES256" ⟨none, some "P-256"⟩ "AAAA" "h.p" =
      some (.ecdsa "SHA-256", [0, 0, 0], "h.p") ∧
    verifySignatureAsync "EdDSA" ⟨none, some "Ed25519"⟩ "AAAA" "h.p" =
      some (.namedAlgorithm (some "Ed25519"), [0, 0, 0], "h.p") := by
  refine ⟨?_, ?_⟩
  · exact (verify_signature_dispatch "ES256" ⟨none, some "P-256"⟩ "AAAA" "h.p"
      [0, 0, 0] (by decide)).2.1 rfl
  · exact (verify_signature_dispatch "EdDSA" ⟨none, some "Ed25519"⟩ "AAAA" "h.p"
      [0, 0, 0] (by decide)).2.2.2.2 rfl

end NodeWebCompatWeb
